import Mathlib

/-!
Shallow embedding of the process-supervision core of `together-rs`
(`src/process.rs` and `src/manager.rs`).

OS side effects (spawning children, the `libc::kill` syscall, a child's
poll status) are abstracted as explicit parameters ("oracles"): each
function takes the outcome the OS would report and the model computes
exactly what the Rust code does with that outcome.  Manager state is a
record; the `HashMap`s are modelled by their key lists (every insertion
uses a fresh key or keeps the key set unchanged, so only the key set
matters to the claims).
-/

namespace Together

/-- `ProcessId` from `src/process.rs`: a sequence number (`u32`) plus the
original command text; equality is by both fields. -/
structure ProcessId where
  id : Nat
  command : String
deriving DecidableEq, Repr

/-- `ProcessSignal` from `src/process.rs`. -/
inductive ProcessSignal
  | SIGINT
  | SIGTERM
  | SIGKILL
deriving DecidableEq, Repr

/-- `ProcessStdio` from `src/process.rs`. -/
inductive ProcessStdio
  | Inherit
  | Raw
  | StderrOnly
deriving DecidableEq, Repr

/-- `impl From<bool> for ProcessStdio` in `src/process.rs`. -/
def stdioOfBool (b : Bool) : ProcessStdio :=
  if b then ProcessStdio.Raw else ProcessStdio.Inherit

/-- `subprocess::Redirection` as used by `SbProcess::spawn`
(`Redirection::None` inherits the parent's stream, `Redirection::Pipe`
creates a pipe owned by the supervisor). -/
inductive Redirection
  | RNone
  | RPipe
deriving DecidableEq, Repr

/-- The `config.stdout` assignment in `SbProcess::spawn`
(`src/process.rs`): `Raw => None`, everything else piped. -/
def spawnStdoutRedirection : ProcessStdio → Redirection
  | ProcessStdio.Raw => Redirection.RNone
  | _ => Redirection.RPipe

/-- The `config.stderr` assignment in `SbProcess::spawn`
(`src/process.rs`): `Raw | StderrOnly => None`, everything else piped. -/
def spawnStderrRedirection : ProcessStdio → Redirection
  | ProcessStdio.Raw => Redirection.RNone
  | ProcessStdio.StderrOnly => Redirection.RNone
  | _ => Redirection.RPipe

/-- Linux `libc` numeric values of the three signals, as resolved by the
`match signal` in `SbProcess::kill` (`src/process.rs`): `Some(SIGINT) => 2`,
`Some(SIGTERM) => 15`, `Some(SIGKILL) => 9`, `None => libc::SIGTERM = 15`. -/
def signalNumber : Option ProcessSignal → Int
  | some ProcessSignal.SIGINT => 2
  | some ProcessSignal.SIGTERM => 15
  | some ProcessSignal.SIGKILL => 9
  | none => 15

/-- One `libc::kill(target, signal)` invocation recorded by the model. -/
structure KillCall where
  target : Int
  signal : Int
deriving DecidableEq, Repr

/-- The unix branch of `SbProcess::kill` (`src/process.rs`).
`pidAfterPoll` is what `self.popen.pid()` reports after the initial
`poll()` (`none` when the child is already reaped), and `osKill` is the
return value of the `libc::kill` syscall for a given target and signal.
Returns the Rust function's result together with the kill call it made,
if any: with no pid the function returns `Ok(())` without any syscall;
otherwise it sends the selected signal to the *negative* pid (the process
group) and fails exactly when the syscall's return value is negative
(`check_err`). -/
def SbProcess.killUnix (pidAfterPoll : Option Nat) (signal : Option ProcessSignal)
    (osKill : Int → Int → Int) : Except Unit Unit × Option KillCall :=
  match pidAfterPoll with
  | none => (Except.ok (), none)
  | some pid =>
      let s := signalNumber signal
      let call : KillCall := ⟨-(pid : Int), s⟩
      if osKill (-(pid : Int)) s < 0 then (Except.error (), some call)
      else (Except.ok (), some call)

/-- `TogetherInternalError` from `src/errors.rs` (the variants the core
uses). -/
inductive TogetherInternalError
  | ProcessFailedToExit
  | UnexpectedResponse
deriving DecidableEq, Repr

/-- The `TogetherError` variants reachable from the modelled core. -/
inductive TogetherError
  | InternalError (e : TogetherInternalError)
deriving DecidableEq, Repr

/-- `subprocess::ExitStatus` as consumed by `SbProcess::try_wait`.
`Exited` carries the `u32` exit code. -/
inductive ExitStatus
  | Exited (code : Nat)
  | Signaled (sig : Nat)
  | Other (code : Int)
  | Undetermined
deriving DecidableEq, Repr

/-- Rust's `code as i32` cast of a `u32` exit code: bit reinterpretation,
values at or above `2^31` wrap to negative. -/
def u32ToI32 (n : Nat) : Int :=
  if n % 2 ^ 32 < 2 ^ 31 then ((n % 2 ^ 32 : Nat) : Int)
  else ((n % 2 ^ 32 : Nat) : Int) - 2 ^ 32

/-- `SbProcess::try_wait` (`src/process.rs`), with the child's
`popen.poll()` outcome passed in: `None` while running, `Exited(code)`
mapped to `Ok(Some(code as i32))`, `Signaled(_)` mapped to `Ok(Some(1))`,
`Other(_)` and `Undetermined` mapped to the `ProcessFailedToExit` error. -/
def SbProcess.tryWait (poll : Option ExitStatus) : Except TogetherError (Option Int) :=
  match poll with
  | some (ExitStatus.Exited code) => Except.ok (some (u32ToI32 code))
  | some (ExitStatus.Signaled _) => Except.ok (some 1)
  | some (ExitStatus.Other _) => Except.error (TogetherError.InternalError TogetherInternalError.ProcessFailedToExit)
  | some ExitStatus.Undetermined => Except.error (TogetherError.InternalError TogetherInternalError.ProcessFailedToExit)
  | none => Except.ok none

/-- `true` exactly on `Ok`. -/
def exceptOk {α β : Type} : Except α β → Bool
  | Except.ok _ => true
  | Except.error _ => false

/-- `ProcessManagerError` from `src/manager.rs`. -/
inductive ProcessManagerError
  | SpawnChildFailed (msg : String)
  | KillChildFailed (msg : String)
  | NoSuchProcess
  | Unknown
deriving DecidableEq, Repr

/-- `CreateOptions` from `src/manager.rs`. -/
structure CreateOptions where
  stdio : Option ProcessStdio := none
  cwd : Option String := none
deriving DecidableEq, Repr

/-- `ProcessAction` from `src/manager.rs`. -/
inductive ProcessAction
  | Create (command : String)
  | CreateAdvanced (command : String) (options : CreateOptions)
  | Wait (id : ProcessId)
  | Kill (id : ProcessId)
  | KillAdvanced (id : ProcessId) (signal : ProcessSignal)
  | KillAll
  | List
deriving DecidableEq, Repr

/-- Key lists for the modelled `HashMap`s. -/
abbrev IdList := List ProcessId

/-- `ProcessActionResponse` from `src/manager.rs`; the `Waited` receiver
carries no data relevant to the model. -/
inductive ProcessActionResponse
  | Created (id : ProcessId)
  | Waited
  | Killed
  | KilledAll
  | List (ids : IdList)
  | Error (e : ProcessManagerError)
deriving DecidableEq, Repr

/-- The mutable fields of `ProcessManager` (`src/manager.rs`).  The two
`HashMap`s are modelled by their key lists: `processes` holds the
tracked ids, `wait_handles` the ids with a registered one-shot notifier. -/
structure ManagerState where
  processes : IdList
  wait_handles : IdList
  index : Nat
  raw_stdio : Bool
  exit_on_error : Bool
  quit_on_completion : Bool
  killed : Bool
  cwd : Option String
deriving DecidableEq, Repr

/-- `HashMap::insert` on the key set: a present key keeps the set, a new
key is appended. -/
def insertKey (l : IdList) (k : ProcessId) : IdList :=
  if k ∈ l then l else l ++ [k]

/-- What one `process_message` call did: the new state, the reply, every
`child.kill(signal)` call made (with its `Option<&ProcessSignal>`
argument), and every id whose `forward_stdio` was started. -/
structure StepResult where
  state : ManagerState
  response : ProcessActionResponse
  kills : List (ProcessId × Option ProcessSignal)
  forwards : IdList
deriving DecidableEq, Repr

/-- `ProcessManager::start_new_process` (`src/manager.rs`), with the
`Process::spawn` outcome passed in (`Ok` or the spawn error's text).  On
success the new id is inserted and `forward_stdio` is called exactly when
the stdio mode is `Inherit`; on failure the state is untouched and the
reply is `Error(SpawnChildFailed)`.  The cwd argument only feeds the real
spawn, which the oracle abstracts. -/
def startNewProcess (st : ManagerState) (command : String) (_cwd : Option String)
    (stdio : ProcessStdio) (id : Nat) (spawnRes : Except String Unit) : StepResult :=
  match spawnRes with
  | Except.ok _ =>
      let pid : ProcessId := ⟨id, command⟩
      let fwd : IdList :=
        match stdio with
        | ProcessStdio.Inherit => [pid]
        | _ => []
      ⟨{ st with processes := insertKey st.processes pid },
       ProcessActionResponse.Created pid, [], fwd⟩
  | Except.error e =>
      ⟨st, ProcessActionResponse.Error (ProcessManagerError.SpawnChildFailed e), [], []⟩

/-- `ProcessManager::process_message` (`src/manager.rs`).  `spawnRes` is
the `Process::spawn` outcome for a create request; `killRes id` is the
`child.kill` outcome for the child registered under `id` (with the error
text of `e.to_string()`). -/
def processMessage (st : ManagerState) (a : ProcessAction)
    (spawnRes : Except String Unit) (killRes : ProcessId → Except String Unit) : StepResult :=
  match a with
  | ProcessAction.Create command =>
      let id := st.index
      let st1 := { st with index := st.index + 1 }
      startNewProcess st1 command st1.cwd (stdioOfBool st1.raw_stdio) id spawnRes
  | ProcessAction.CreateAdvanced command options =>
      let id := st.index
      let st1 := { st with index := st.index + 1 }
      let stdio := options.stdio.getD (stdioOfBool st1.raw_stdio)
      let cwd := options.cwd.orElse fun _ => st1.cwd
      startNewProcess st1 command cwd stdio id spawnRes
  | ProcessAction.Wait id =>
      if id ∈ st.processes then
        ⟨{ st with wait_handles := insertKey st.wait_handles id },
         ProcessActionResponse.Waited, [], []⟩
      else ⟨st, ProcessActionResponse.Error ProcessManagerError.NoSuchProcess, [], []⟩
  | ProcessAction.Kill id =>
      if id ∈ st.processes then
        match killRes id with
        | Except.ok _ => ⟨st, ProcessActionResponse.Killed, [(id, none)], []⟩
        | Except.error e =>
            ⟨st, ProcessActionResponse.Error (ProcessManagerError.KillChildFailed e),
             [(id, none)], []⟩
      else ⟨st, ProcessActionResponse.Error ProcessManagerError.NoSuchProcess, [], []⟩
  | ProcessAction.KillAdvanced id signal =>
      if id ∈ st.processes then
        match killRes id with
        | Except.ok _ => ⟨st, ProcessActionResponse.Killed, [(id, some signal)], []⟩
        | Except.error e =>
            ⟨st, ProcessActionResponse.Error (ProcessManagerError.KillChildFailed e),
             [(id, some signal)], []⟩
      else ⟨st, ProcessActionResponse.Error ProcessManagerError.NoSuchProcess, [], []⟩
  | ProcessAction.KillAll =>
      let st1 := { st with killed := true }
      let errors := st1.processes.filter fun id => !(exceptOk (killRes id))
      let kills := st1.processes.map fun id => (id, (none : Option ProcessSignal))
      if errors.isEmpty then ⟨st1, ProcessActionResponse.KilledAll, kills, []⟩
      else ⟨st1, ProcessActionResponse.Error ProcessManagerError.Unknown, kills, []⟩
  | ProcessAction.List =>
      ⟨st, ProcessActionResponse.List st.processes, [], []⟩

/-- `true` when this cycle's `try_wait` for `id` was `Ok(Some(_))` (the
process is reaped this cycle). -/
def pollExited (poll : ProcessId → Except TogetherError (Option Int)) (id : ProcessId) : Bool :=
  match poll id with
  | Except.ok (some _) => true
  | _ => false

/-- `true` when this cycle's `try_wait` for `id` was `Ok(Some(s))` with
`s != 0` (the trigger of the `exit_on_error` cascade). -/
def pollNonzeroExit (poll : ProcessId → Except TogetherError (Option Int)) (id : ProcessId) : Bool :=
  match poll id with
  | Except.ok (some s) => decide (s ≠ 0)
  | _ => false

/-- What one `cleanup_dead_processes` call did: the new state, the ids
whose wait notifier was fired, and the ids `drain`ed and signalled by the
`kill_all` branch. -/
structure CleanupResult where
  state : ManagerState
  notified : IdList
  drainKilled : IdList
deriving DecidableEq, Repr

/-- `ProcessManager::cleanup_dead_processes` (`src/manager.rs`), with each
child's `try_wait` outcome passed in as `poll`.  First every process whose
poll is `Ok(Some(_))` is collected into `remove`, and `kill_all` is set
when `exit_on_error` holds and some collected status was non-zero.  Each
removed id fires (and drops) its wait notifier and leaves the table.  When
`kill_all` was set the remaining table is then `drain`ed: every survivor
is signalled with the default signal and removed, and `wait_handles` is
not consulted. -/
def cleanupDeadProcesses (st : ManagerState)
    (poll : ProcessId → Except TogetherError (Option Int)) : CleanupResult :=
  let remove := st.processes.filter (pollExited poll)
  let killAll := st.exit_on_error && st.processes.any (pollNonzeroExit poll)
  let notified := st.wait_handles.filter fun id => decide (id ∈ remove)
  let handles := st.wait_handles.filter fun id => !(decide (id ∈ remove))
  let survivors := st.processes.filter fun id => !(decide (id ∈ remove))
  if killAll then
    ⟨{ st with processes := [], wait_handles := handles }, notified, survivors⟩
  else
    ⟨{ st with processes := survivors, wait_handles := handles }, notified, []⟩

/-- The fate of one timeout iteration of `rx_message_loop`. -/
inductive TimeoutOutcome
  | Terminated (st : ManagerState)
  | Continue (st : ManagerState)
deriving DecidableEq, Repr

/-- The `RecvTimeoutError::Timeout` arm of `ProcessManager::rx_message_loop`
(`src/manager.rs`): with `killed` set the loop `break`s at once (and the
function then exits the process); otherwise a non-empty table is reaped,
and if the table just became empty with `quit_on_completion` or `killed`
set the program exits.  The idle branch that waits 100ms for one more
message on an empty table is modelled as continuing, which only matters
once the table is already empty. -/
def onTimeout (st : ManagerState)
    (poll : ProcessId → Except TogetherError (Option Int)) : TimeoutOutcome :=
  if st.killed then TimeoutOutcome.Terminated st
  else if st.processes.isEmpty then TimeoutOutcome.Continue st
  else
    let r := cleanupDeadProcesses st poll
    if r.state.processes.isEmpty then
      if r.state.quit_on_completion || r.state.killed then TimeoutOutcome.Terminated r.state
      else TimeoutOutcome.Continue r.state
    else TimeoutOutcome.Continue r.state

/-- One event seen by the actor: either a request (with its spawn/kill
oracles) or a reap pass (with its poll oracle). -/
inductive ManagerEvent
  | Req (a : ProcessAction) (spawnRes : Except String Unit)
      (killRes : ProcessId → Except String Unit)
  | Reap (poll : ProcessId → Except TogetherError (Option Int))

/-- Apply one event to the state; requests yield their response. -/
def stepEvent (st : ManagerState) : ManagerEvent → ManagerState × Option ProcessActionResponse
  | ManagerEvent.Req a sp k =>
      ((processMessage st a sp k).state, some (processMessage st a sp k).response)
  | ManagerEvent.Reap poll => ((cleanupDeadProcesses st poll).state, none)

/-- Run a sequence of events; collect the final state and the responses. -/
def runEvents (st : ManagerState) :
    List ManagerEvent → ManagerState × List (Option ProcessActionResponse)
  | [] => (st, [])
  | e :: rest =>
      ((runEvents (stepEvent st e).1 rest).1,
       (stepEvent st e).2 :: (runEvents (stepEvent st e).1 rest).2)

/-- The sequence numbers of the `Created` replies, in order. -/
def createdSeqs : List (Option ProcessActionResponse) → List Nat
  | [] => []
  | some (ProcessActionResponse.Created pid) :: rest => pid.id :: createdSeqs rest
  | _ :: rest => createdSeqs rest

/-! ## C1: default signal of a plain Kill -/

/-- C1 counterexample: with a live process group (pid 42) and no explicit
signal, `SbProcess::kill` issues `libc::kill(-42, 15)` — the delivered
signal is SIGTERM (15), not SIGINT (2) as the claim states. -/
theorem plain_kill_default_signal_cex :
    (SbProcess.killUnix (some 42) none fun _ _ => 0).2 = some ⟨-42, 15⟩ ∧
      signalNumber none = 15 ∧ signalNumber (some ProcessSignal.SIGINT) = 2 ∧
      (15 : Int) ≠ 2 := by
  refine ⟨rfl, rfl, rfl, by decide⟩

/-- C1 (amended): for every call to `Process::kill` with no explicit signal
(the plain `Kill` request, which the manager forwards as `kill(None)`),
the signal delivered on unix to the negative process-group id is SIGTERM;
SIGINT and SIGKILL are delivered only when explicitly requested via
`KillAdvanced`, which forwards the requested signal unchanged. -/
theorem plain_kill_default_signal_is_sigterm (pid : Nat) (osKill : Int → Int → Int)
    (s : ProcessSignal) (st : ManagerState) (id : ProcessId)
    (sp : Except String Unit) (k : ProcessId → Except String Unit)
    (hmem : id ∈ st.processes) :
    (SbProcess.killUnix (some pid) none osKill).2 = some ⟨-(pid : Int), 15⟩ ∧
      (SbProcess.killUnix (some pid) (some s) osKill).2 =
        some ⟨-(pid : Int), signalNumber (some s)⟩ ∧
      signalNumber (some ProcessSignal.SIGINT) = 2 ∧
      signalNumber (some ProcessSignal.SIGTERM) = 15 ∧
      signalNumber (some ProcessSignal.SIGKILL) = 9 ∧ signalNumber none = 15 ∧
      (processMessage st (ProcessAction.Kill id) sp k).kills = [(id, none)] ∧
      (processMessage st (ProcessAction.KillAdvanced id s) sp k).kills = [(id, some s)] := by
  have h1 : (SbProcess.killUnix (some pid) none osKill).2 = some ⟨-(pid : Int), 15⟩ := by
    simp only [SbProcess.killUnix]
    split <;> rfl
  have h2 : (SbProcess.killUnix (some pid) (some s) osKill).2 =
      some ⟨-(pid : Int), signalNumber (some s)⟩ := by
    simp only [SbProcess.killUnix]
    split <;> rfl
  have h3 : (processMessage st (ProcessAction.Kill id) sp k).kills = [(id, none)] := by
    simp only [processMessage, if_pos hmem]
    cases k id <;> rfl
  have h4 : (processMessage st (ProcessAction.KillAdvanced id s) sp k).kills =
      [(id, some s)] := by
    simp only [processMessage, if_pos hmem]
    cases k id <;> rfl
  exact ⟨h1, h2, rfl, rfl, rfl, rfl, h3, h4⟩

/-- C1 witness: the amended theorem at pid 42, process `[0]: a`, signal
SIGKILL, a succeeding syscall and a succeeding child kill. -/
theorem plain_kill_default_signal_witness :
    (⟨0, "a"⟩ : ProcessId) ∈ [(⟨0, "a"⟩ : ProcessId)] ∧
      (SbProcess.killUnix (some 42) none fun _ _ => 0).2 = some ⟨-42, 15⟩ ∧
      (SbProcess.killUnix (some 42) (some ProcessSignal.SIGKILL) fun _ _ => 0).2 =
        some ⟨-42, signalNumber (some ProcessSignal.SIGKILL)⟩ ∧
      signalNumber (some ProcessSignal.SIGINT) = 2 ∧
      signalNumber (some ProcessSignal.SIGTERM) = 15 ∧
      signalNumber (some ProcessSignal.SIGKILL) = 9 ∧ signalNumber none = 15 ∧
      (processMessage ⟨[⟨0, "a"⟩], [], 1, false, false, true, false, none⟩
        (ProcessAction.Kill ⟨0, "a"⟩) (Except.ok ()) (fun _ => Except.ok ())).kills =
        [(⟨0, "a"⟩, none)] ∧
      (processMessage ⟨[⟨0, "a"⟩], [], 1, false, false, true, false, none⟩
        (ProcessAction.KillAdvanced ⟨0, "a"⟩ ProcessSignal.SIGKILL) (Except.ok ())
        (fun _ => Except.ok ())).kills = [(⟨0, "a"⟩, some ProcessSignal.SIGKILL)] :=
  ⟨by decide,
   plain_kill_default_signal_is_sigterm 42 (fun _ _ => 0) ProcessSignal.SIGKILL
     ⟨[⟨0, "a"⟩], [], 1, false, false, true, false, none⟩ ⟨0, "a"⟩ (Except.ok ())
     (fun _ => Except.ok ()) (by decide)⟩

/-! ## C7: try_wait classification -/

/-- C7: `try_wait` returns `None` while the child is still running,
`Some(code as i32)` once it exited with numeric exit code `code` (equal to
`code` itself for every code below `2^31`, which covers all real unix exit
codes), `Some(1)` when the OS reports termination by signal, and the
`ProcessFailedToExit` error exactly when the OS reports an `Other` or
`Undetermined` status. -/
theorem tryWait_classification :
    SbProcess.tryWait none = Except.ok none ∧
      (∀ c : Nat, SbProcess.tryWait (some (ExitStatus.Exited c)) =
        Except.ok (some (u32ToI32 c))) ∧
      (∀ c : Nat, c < 2 ^ 31 → u32ToI32 c = (c : Int)) ∧
      (∀ s : Nat, SbProcess.tryWait (some (ExitStatus.Signaled s)) = Except.ok (some 1)) ∧
      (∀ r, (∃ e, SbProcess.tryWait r = Except.error e) ↔
        ((∃ c, r = some (ExitStatus.Other c)) ∨ r = some ExitStatus.Undetermined)) ∧
      (∀ r e, SbProcess.tryWait r = Except.error e →
        e = TogetherError.InternalError TogetherInternalError.ProcessFailedToExit) := by
  refine ⟨rfl, fun c => rfl, ?_, fun s => rfl, ?_, ?_⟩
  · intro c hc
    have hmod : c % 2 ^ 32 = c := Nat.mod_eq_of_lt (by omega)
    unfold u32ToI32
    rw [hmod, if_pos hc]
  · intro r
    constructor
    · rintro ⟨e, he⟩
      match r with
      | none => simp [SbProcess.tryWait] at he
      | some (ExitStatus.Exited c) => simp [SbProcess.tryWait] at he
      | some (ExitStatus.Signaled s) => simp [SbProcess.tryWait] at he
      | some (ExitStatus.Other c) => exact Or.inl ⟨c, rfl⟩
      | some ExitStatus.Undetermined => exact Or.inr rfl
    · rintro (⟨c, rfl⟩ | rfl) <;>
        exact ⟨TogetherError.InternalError TogetherInternalError.ProcessFailedToExit, rfl⟩
  · intro r e he
    match r with
    | none => simp [SbProcess.tryWait] at he
    | some (ExitStatus.Exited c) => simp [SbProcess.tryWait] at he
    | some (ExitStatus.Signaled s) => simp [SbProcess.tryWait] at he
    | some (ExitStatus.Other c) =>
        simpa [SbProcess.tryWait] using he.symm
    | some ExitStatus.Undetermined =>
        simpa [SbProcess.tryWait] using he.symm

/-- C7 witness: exit code 7 is below `2^31` and maps to `Some(7)`. -/
theorem tryWait_classification_witness :
    (7 : Nat) < 2 ^ 31 ∧ u32ToI32 7 = (7 : Int) :=
  ⟨by norm_num, tryWait_classification.2.2.1 7 (by norm_num)⟩

/-! ## C8: kill error condition -/

/-- C8: `Process::kill` (unix) returns an error if and only if the process
is still present (a pid is available after the poll) and the OS kill call
on the negative process-group id returns a failure; when the process has
already exited (no pid available) it returns success without any syscall,
so kill on an already-exited process is idempotent. -/
theorem kill_error_iff_os_kill_fails (pidAfterPoll : Option Nat)
    (sig : Option ProcessSignal) (osKill : Int → Int → Int) :
    (exceptOk (SbProcess.killUnix pidAfterPoll sig osKill).1 = false ↔
      ∃ p, pidAfterPoll = some p ∧ osKill (-(p : Int)) (signalNumber sig) < 0) ∧
      (SbProcess.killUnix none sig osKill).1 = Except.ok () ∧
      (SbProcess.killUnix none sig osKill).2 = none := by
  refine ⟨?_, rfl, rfl⟩
  match pidAfterPoll with
  | none => simp [SbProcess.killUnix, exceptOk]
  | some p =>
      by_cases h : osKill (-(p : Int)) (signalNumber sig) < 0
      · simp [SbProcess.killUnix, exceptOk, h]
      · simp [SbProcess.killUnix, exceptOk, h]

/-! ## Concrete two-process fixture for the reap-cycle claims -/

/-- A reap-cycle fixture: processes `[0]: a` and `[1]: b` are tracked,
`[1]: b` has a registered wait notifier, and `exit_on_error` is set. -/
def stTwo : ManagerState :=
  ⟨[⟨0, "a"⟩, ⟨1, "b"⟩], [⟨1, "b"⟩], 2, false, true, true, false, none⟩

/-- Poll outcomes for the fixture: `[0]: a` exits with status 1 this
cycle, `[1]: b` is still running. -/
def pollTwo : ProcessId → Except TogetherError (Option Int) :=
  fun id => if id.id = 0 then Except.ok (some 1) else Except.ok none

/-! ## C2: the exit_on_error cascade and the process table -/

/-- C2 counterexample: with `exit_on_error` set, `[0]: a` exiting non-zero
and `[1]: b` still running, the same `cleanup_dead_processes` cycle leaves
the table empty — the remaining process `[1]: b` is removed in that cycle
by the `drain`, not left for a later reap. -/
theorem exit_on_error_same_cycle_removal_cex :
    (⟨1, "b"⟩ : ProcessId) ∈ stTwo.processes ∧
      pollExited pollTwo ⟨1, "b"⟩ = false ∧ stTwo.exit_on_error = true ∧
      (cleanupDeadProcesses stTwo pollTwo).state.processes = [] := by
  decide

/-- C2 (amended): in every reap cycle where `exit_on_error` is set and some
process is observed to have exited with a non-zero status, the manager
signals every remaining process in the table and also removes every
remaining process from the table in that same cycle (the table is drained
empty); no process stays in the table for a later reap. -/
theorem exit_on_error_drains_table (st : ManagerState)
    (poll : ProcessId → Except TogetherError (Option Int)) (id : ProcessId)
    (herr : st.exit_on_error = true)
    (htrig : ∃ j ∈ st.processes, pollNonzeroExit poll j = true) :
    (cleanupDeadProcesses st poll).state.processes = [] ∧
      (id ∈ (cleanupDeadProcesses st poll).drainKilled ↔
        id ∈ st.processes ∧ pollExited poll id = false) := by
  have hka : (st.exit_on_error && st.processes.any (pollNonzeroExit poll)) = true := by
    rcases htrig with ⟨j, hjmem, hjp⟩
    rw [herr, Bool.true_and, List.any_eq_true]
    exact ⟨j, hjmem, hjp⟩
  constructor
  · simp [cleanupDeadProcesses, hka]
  · simp only [cleanupDeadProcesses, hka, if_true, List.mem_filter, Bool.not_eq_true',
      decide_eq_false_iff_not]
    constructor
    · rintro ⟨hmem, hnot⟩
      refine ⟨hmem, ?_⟩
      cases hpe : pollExited poll id
      · rfl
      · exact absurd ⟨hmem, hpe⟩ hnot
    · rintro ⟨hmem, hpe⟩
      refine ⟨hmem, fun hin => ?_⟩
      rw [hpe] at hin
      exact Bool.false_ne_true hin.2

/-- C2 witness: the amended theorem on the two-process fixture; after the
cycle the table is empty and the survivor `[1]: b` was drained. -/
theorem exit_on_error_drains_table_witness :
    (stTwo.exit_on_error = true ∧
      ∃ j ∈ stTwo.processes, pollNonzeroExit pollTwo j = true) ∧
      (cleanupDeadProcesses stTwo pollTwo).state.processes = [] ∧
      ((⟨1, "b"⟩ : ProcessId) ∈ (cleanupDeadProcesses stTwo pollTwo).drainKilled ↔
        (⟨1, "b"⟩ : ProcessId) ∈ stTwo.processes ∧ pollExited pollTwo ⟨1, "b"⟩ = false) :=
  ⟨⟨by decide, by decide⟩,
   exit_on_error_drains_table stTwo pollTwo ⟨1, "b"⟩ (by decide) (by decide)⟩

/-! ## C3: wait notifiers -/

/-- C3 counterexample: `[1]: b` has a registered wait notifier and leaves
the table in this cycle (drained by the `exit_on_error` cascade), yet its
notifier is not fired — so a notifier can fail to fire for a process that
leaves the table. -/
theorem drained_process_skips_notifier_cex :
    (⟨1, "b"⟩ : ProcessId) ∈ stTwo.processes ∧
      (⟨1, "b"⟩ : ProcessId) ∈ stTwo.wait_handles ∧
      (⟨1, "b"⟩ : ProcessId) ∉ (cleanupDeadProcesses stTwo pollTwo).state.processes ∧
      (⟨1, "b"⟩ : ProcessId) ∉ (cleanupDeadProcesses stTwo pollTwo).notified := by
  decide

/-- C3 (amended): a registered wait notifier fires exactly for its own id,
when that id's process is observed exited in a reap cycle and removed from
the table; it never fires for a different id.  A process force-removed by
the `exit_on_error` drain, however, leaves the table without its notifier
firing, and that notifier stays registered. -/
theorem wait_notifier_fires_iff_reaped (st : ManagerState)
    (poll : ProcessId → Except TogetherError (Option Int)) (id : ProcessId) :
    (id ∈ (cleanupDeadProcesses st poll).notified ↔
      id ∈ st.wait_handles ∧ id ∈ st.processes ∧ pollExited poll id = true) ∧
      (id ∈ (cleanupDeadProcesses st poll).drainKilled →
        id ∉ (cleanupDeadProcesses st poll).notified ∧
        id ∉ (cleanupDeadProcesses st poll).state.processes ∧
        (id ∈ st.wait_handles → id ∈ (cleanupDeadProcesses st poll).state.wait_handles)) := by
  constructor
  · simp only [cleanupDeadProcesses]
    split <;> simp only [List.mem_filter, decide_eq_true_eq]
  · simp only [cleanupDeadProcesses]
    split
    · intro hd
      have hd' := List.mem_filter.mp hd
      have hnotin : id ∉ st.processes.filter (pollExited poll) := by
        intro hin
        rw [decide_eq_true hin] at hd'
        exact Bool.false_ne_true hd'.2
      refine ⟨?_, ?_, ?_⟩
      · intro hn
        exact hnotin ((List.mem_filter.mp hn).2 |> decide_eq_true_eq.mp)
      · simp
      · intro hw
        refine List.mem_filter.mpr ⟨hw, ?_⟩
        rw [decide_eq_false hnotin]
        rfl
    · intro hd
      simp at hd

/-- C3 witness: the amended theorem on the two-process fixture at id
`[1]: b`, discharging the drain hypothesis concretely. -/
theorem wait_notifier_fires_iff_reaped_witness :
    (⟨1, "b"⟩ : ProcessId) ∈ (cleanupDeadProcesses stTwo pollTwo).drainKilled ∧
      ((⟨1, "b"⟩ : ProcessId) ∉ (cleanupDeadProcesses stTwo pollTwo).notified ∧
        (⟨1, "b"⟩ : ProcessId) ∉ (cleanupDeadProcesses stTwo pollTwo).state.processes ∧
        ((⟨1, "b"⟩ : ProcessId) ∈ stTwo.wait_handles →
          (⟨1, "b"⟩ : ProcessId) ∈ (cleanupDeadProcesses stTwo pollTwo).state.wait_handles)) :=
  ⟨by decide, (wait_notifier_fires_iff_reaped stTwo pollTwo ⟨1, "b"⟩).2 (by decide)⟩

/-! ## C4: the draining loop -/

/-- C4 counterexample: with `killed` set and `[0]: a` still tracked, the
timeout arm terminates the loop at once even though the table is not
empty. -/
theorem draining_terminates_nonempty_cex :
    onTimeout ⟨[⟨0, "a"⟩], [], 1, false, false, true, true, none⟩ (fun _ => Except.ok none) =
      TimeoutOutcome.Terminated ⟨[⟨0, "a"⟩], [], 1, false, false, true, true, none⟩ ∧
      (⟨[⟨0, "a"⟩], [], 1, false, false, true, true, none⟩ : ManagerState).processes ≠ [] := by
  decide

/-- C4 (amended): after a KillAll request sets `killed=true`, the actor's
control loop terminates on the very next timeout, whether or not tracked
processes remain in the table; it does not keep reaping until the table is
empty (the KillAll itself already signalled every tracked process). -/
theorem killed_flag_terminates_loop (st : ManagerState)
    (poll : ProcessId → Except TogetherError (Option Int)) (h : st.killed = true) :
    onTimeout st poll = TimeoutOutcome.Terminated st := by
  simp [onTimeout, h]

/-- C4 witness: the amended theorem on a killed state with a non-empty
table. -/
theorem killed_flag_terminates_loop_witness :
    (⟨[⟨0, "b"⟩], [], 1, false, false, true, true, none⟩ : ManagerState).killed = true ∧
      onTimeout ⟨[⟨0, "b"⟩], [], 1, false, false, true, true, none⟩ (fun _ => Except.ok none) =
        TimeoutOutcome.Terminated ⟨[⟨0, "b"⟩], [], 1, false, false, true, true, none⟩ :=
  ⟨rfl, killed_flag_terminates_loop _ _ rfl⟩

/-! ## C5: StderrOnly stdio wiring and forwarding -/

/-- C5 counterexample: for a `StderrOnly` spawn the child's stderr is
inherited from the parent (not piped), its stdout is piped, and a
successful create with the non-Raw mode `StderrOnly` starts no forwarding
task — all three parts of the claim fail on the code. -/
theorem stderronly_claim_cex :
    spawnStderrRedirection ProcessStdio.StderrOnly = Redirection.RNone ∧
      spawnStdoutRedirection ProcessStdio.StderrOnly = Redirection.RPipe ∧
      ProcessStdio.StderrOnly ≠ ProcessStdio.Raw ∧
      (startNewProcess ⟨[], [], 0, false, false, true, false, none⟩ "a" none
        ProcessStdio.StderrOnly 0 (Except.ok ())).forwards = [] := by
  decide

/-- C5 (amended): for every spawn with `stdio_mode = StderrOnly`, the
child's stdout is piped (captured, but with no forwarding task reading it)
while its stderr is inherited from the parent; and a create starts a
forwarding task exactly when it succeeds with stdio mode `Inherit` — not
for `StderrOnly` and not for `Raw` (which pipes neither stream). -/
theorem stderronly_pipes_stdout_inherits_stderr (st : ManagerState) (command : String)
    (cwd : Option String) (id : Nat) (sp : Except String Unit) (stdio : ProcessStdio)
    (hok : sp = Except.ok ()) :
    spawnStdoutRedirection ProcessStdio.StderrOnly = Redirection.RPipe ∧
      spawnStderrRedirection ProcessStdio.StderrOnly = Redirection.RNone ∧
      spawnStdoutRedirection ProcessStdio.Inherit = Redirection.RPipe ∧
      spawnStderrRedirection ProcessStdio.Inherit = Redirection.RPipe ∧
      spawnStdoutRedirection ProcessStdio.Raw = Redirection.RNone ∧
      spawnStderrRedirection ProcessStdio.Raw = Redirection.RNone ∧
      ((startNewProcess st command cwd stdio id sp).forwards ≠ [] ↔
        stdio = ProcessStdio.Inherit) ∧
      (∀ e, (startNewProcess st command cwd stdio id (Except.error e)).forwards = []) := by
  subst hok
  refine ⟨rfl, rfl, rfl, rfl, rfl, rfl, ?_, fun e => rfl⟩
  cases stdio <;> simp [startNewProcess]

/-- C5 witness: a successful `Inherit` create starts forwarding, a
successful `StderrOnly` create does not. -/
theorem stderronly_pipes_stdout_inherits_stderr_witness :
    (Except.ok () : Except String Unit) = Except.ok () ∧
      ((startNewProcess ⟨[], [], 0, false, false, true, false, none⟩ "a" none
          ProcessStdio.Inherit 0 (Except.ok ())).forwards ≠ [] ↔
        ProcessStdio.Inherit = ProcessStdio.Inherit) ∧
      ((startNewProcess ⟨[], [], 0, false, false, true, false, none⟩ "a" none
          ProcessStdio.StderrOnly 0 (Except.ok ())).forwards ≠ [] ↔
        ProcessStdio.StderrOnly = ProcessStdio.Inherit) :=
  ⟨rfl,
   (stderronly_pipes_stdout_inherits_stderr ⟨[], [], 0, false, false, true, false, none⟩
      "a" none 0 (Except.ok ()) ProcessStdio.Inherit rfl).2.2.2.2.2.2.1,
   (stderronly_pipes_stdout_inherits_stderr ⟨[], [], 0, false, false, true, false, none⟩
      "a" none 0 (Except.ok ()) ProcessStdio.StderrOnly rfl).2.2.2.2.2.2.1⟩

/-! ## C9: a failed create still consumes a sequence number -/

/-- C9: a `Create` or `CreateAdvanced` whose spawn fails still increments
the sequence counter and leaves the process table unchanged, replying
`SpawnChildFailed`; a successful create, a failed create and another
successful create in a row — plain or advanced — return the
non-contiguous sequence numbers `index` and `index + 2`. -/
theorem failed_create_consumes_sequence_number (st : ManagerState)
    (c1 c2 c3 : String) (e : String) (opts o1 o2 o3 : CreateOptions)
    (k : ProcessId → Except String Unit) :
    (processMessage st (ProcessAction.Create c2) (Except.error e) k).state.index =
        st.index + 1 ∧
      (processMessage st (ProcessAction.Create c2) (Except.error e) k).state.processes =
        st.processes ∧
      (processMessage st (ProcessAction.Create c2) (Except.error e) k).response =
        ProcessActionResponse.Error (ProcessManagerError.SpawnChildFailed e) ∧
      (processMessage st (ProcessAction.CreateAdvanced c2 opts)
          (Except.error e) k).state.index = st.index + 1 ∧
      (processMessage st (ProcessAction.CreateAdvanced c2 opts)
          (Except.error e) k).state.processes = st.processes ∧
      (processMessage st (ProcessAction.CreateAdvanced c2 opts)
          (Except.error e) k).response =
        ProcessActionResponse.Error (ProcessManagerError.SpawnChildFailed e) ∧
      createdSeqs (runEvents st
          [ManagerEvent.Req (ProcessAction.Create c1) (Except.ok ()) k,
           ManagerEvent.Req (ProcessAction.Create c2) (Except.error e) k,
           ManagerEvent.Req (ProcessAction.Create c3) (Except.ok ()) k]).2 =
        [st.index, st.index + 2] ∧
      createdSeqs (runEvents st
          [ManagerEvent.Req (ProcessAction.CreateAdvanced c1 o1) (Except.ok ()) k,
           ManagerEvent.Req (ProcessAction.CreateAdvanced c2 o2) (Except.error e) k,
           ManagerEvent.Req (ProcessAction.CreateAdvanced c3 o3) (Except.ok ()) k]).2 =
        [st.index, st.index + 2] := by
  refine ⟨rfl, rfl, rfl, rfl, rfl, rfl, ?_, ?_⟩ <;>
    simp [runEvents, stepEvent, processMessage, startNewProcess, createdSeqs]

/-! ## C10: KillAll is not atomic on failure -/

/-- C10: `KillAll` sets the `killed` flag, attempts the default-signal kill
on every tracked process, and leaves the process table unchanged,
regardless of individual failures; the reply is `Error(Unknown)` exactly
when some individual kill failed and `KilledAll` exactly when all
succeeded — the flag and the kill calls are never rolled back on the error
reply. -/
theorem killall_sets_flag_and_kills_despite_errors (st : ManagerState)
    (sp : Except String Unit) (k : ProcessId → Except String Unit) :
    (processMessage st ProcessAction.KillAll sp k).state.killed = true ∧
      (processMessage st ProcessAction.KillAll sp k).state.processes = st.processes ∧
      (processMessage st ProcessAction.KillAll sp k).state.index = st.index ∧
      (processMessage st ProcessAction.KillAll sp k).kills =
        st.processes.map (fun id => (id, (none : Option ProcessSignal))) ∧
      ((processMessage st ProcessAction.KillAll sp k).response =
          ProcessActionResponse.Error ProcessManagerError.Unknown ↔
        ∃ id ∈ st.processes, exceptOk (k id) = false) ∧
      ((processMessage st ProcessAction.KillAll sp k).response =
          ProcessActionResponse.KilledAll ↔
        ∀ id ∈ st.processes, exceptOk (k id) = true) := by
  have hempty : (st.processes.filter fun id => !(exceptOk (k id))).isEmpty = true ↔
      ∀ id ∈ st.processes, exceptOk (k id) = true := by
    rw [List.isEmpty_iff, List.filter_eq_nil_iff]
    constructor
    · intro h id hid
      have := h id hid
      cases hk : exceptOk (k id)
      · rw [hk] at this
        exact absurd rfl this
      · rfl
    · intro h id hid
      rw [h id hid]
      exact Bool.false_ne_true
  by_cases hall : ∀ id ∈ st.processes, exceptOk (k id) = true
  · have he : (st.processes.filter fun id => !(exceptOk (k id))).isEmpty = true :=
      hempty.mpr hall
    have hmsg : processMessage st ProcessAction.KillAll sp k =
        ⟨{ st with killed := true }, ProcessActionResponse.KilledAll,
         st.processes.map (fun id => (id, (none : Option ProcessSignal))), []⟩ := by
      simp only [processMessage, he, if_true]
    rw [hmsg]
    refine ⟨rfl, rfl, rfl, rfl, ?_, ?_⟩
    · constructor
      · intro h
        exact ProcessActionResponse.noConfusion h
      · rintro ⟨id, hid, hko⟩
        rw [hall id hid] at hko
        exact Bool.noConfusion hko
    · exact ⟨fun _ => hall, fun _ => rfl⟩
  · have he : (st.processes.filter fun id => !(exceptOk (k id))).isEmpty = false := by
      cases h : (st.processes.filter fun id => !(exceptOk (k id))).isEmpty
      · rfl
      · exact absurd (hempty.mp h) hall
    have hmsg : processMessage st ProcessAction.KillAll sp k =
        ⟨{ st with killed := true },
         ProcessActionResponse.Error ProcessManagerError.Unknown,
         st.processes.map (fun id => (id, (none : Option ProcessSignal))), []⟩ := by
      simp only [processMessage, he, Bool.false_eq_true, if_false]
    rw [hmsg]
    refine ⟨rfl, rfl, rfl, rfl, ?_, ?_⟩
    · constructor
      · intro _
        push_neg at hall
        rcases hall with ⟨id, hid, hko⟩
        refine ⟨id, hid, ?_⟩
        cases hk : exceptOk (k id)
        · rfl
        · exact absurd hk hko
      · intro _
        rfl
    · constructor
      · intro h
        exact ProcessActionResponse.noConfusion h
      · intro h
        exact absurd h hall

/-! ## C6: sequence numbers are strictly increasing -/

theorem startNewProcess_state_index (st : ManagerState) (c : String) (cwd : Option String)
    (stdio : ProcessStdio) (id : Nat) (sp : Except String Unit) :
    (startNewProcess st c cwd stdio id sp).state.index = st.index := by
  cases sp <;> rfl

theorem processMessage_index_mono (st : ManagerState) (a : ProcessAction)
    (sp : Except String Unit) (k : ProcessId → Except String Unit) :
    st.index ≤ (processMessage st a sp k).state.index := by
  cases a with
  | Create c =>
      simp only [processMessage, startNewProcess_state_index]
      exact Nat.le_succ _
  | CreateAdvanced c opts =>
      simp only [processMessage, startNewProcess_state_index]
      exact Nat.le_succ _
  | Wait id =>
      simp only [processMessage]
      split <;> exact Nat.le_refl _
  | Kill id =>
      simp only [processMessage]
      split
      · cases k id <;> exact Nat.le_refl _
      · exact Nat.le_refl _
  | KillAdvanced id s =>
      simp only [processMessage]
      split
      · cases k id <;> exact Nat.le_refl _
      · exact Nat.le_refl _
  | KillAll =>
      simp only [processMessage]
      split <;> exact Nat.le_refl _
  | List => exact Nat.le_refl _

theorem cleanup_state_index (st : ManagerState)
    (poll : ProcessId → Except TogetherError (Option Int)) :
    (cleanupDeadProcesses st poll).state.index = st.index := by
  simp only [cleanupDeadProcesses]
  split <;> rfl

theorem stepEvent_index_mono (st : ManagerState) (e : ManagerEvent) :
    st.index ≤ (stepEvent st e).1.index := by
  cases e with
  | Req a sp k => exact processMessage_index_mono st a sp k
  | Reap poll => exact le_of_eq (cleanup_state_index st poll).symm

theorem stepEvent_req_fst (st : ManagerState) (a : ProcessAction) (sp : Except String Unit)
    (k : ProcessId → Except String Unit) :
    (stepEvent st (ManagerEvent.Req a sp k)).1 = (processMessage st a sp k).state := rfl

theorem stepEvent_req_snd (st : ManagerState) (a : ProcessAction) (sp : Except String Unit)
    (k : ProcessId → Except String Unit) :
    (stepEvent st (ManagerEvent.Req a sp k)).2 = some (processMessage st a sp k).response := rfl

theorem stepEvent_reap_snd (st : ManagerState)
    (poll : ProcessId → Except TogetherError (Option Int)) :
    (stepEvent st (ManagerEvent.Reap poll)).2 = none := rfl

theorem runEvents_cons_fst (st : ManagerState) (e : ManagerEvent) (rest : List ManagerEvent) :
    (runEvents st (e :: rest)).1 = (runEvents (stepEvent st e).1 rest).1 := rfl

theorem runEvents_cons_snd (st : ManagerState) (e : ManagerEvent) (rest : List ManagerEvent) :
    (runEvents st (e :: rest)).2 =
      (stepEvent st e).2 :: (runEvents (stepEvent st e).1 rest).2 := rfl

/-- A `Created pid` reply carries the pre-increment counter as its sequence
number, and the counter advances past it. -/
theorem processMessage_created (st : ManagerState) (a : ProcessAction)
    (sp : Except String Unit) (k : ProcessId → Except String Unit) (pid : ProcessId)
    (h : (processMessage st a sp k).response = ProcessActionResponse.Created pid) :
    pid.id = st.index ∧ (processMessage st a sp k).state.index = st.index + 1 := by
  cases a with
  | Create c =>
      cases sp with
      | ok u =>
          have hr : (processMessage st (ProcessAction.Create c) (Except.ok u) k).response =
              ProcessActionResponse.Created ⟨st.index, c⟩ := rfl
          rw [hr] at h
          injection h with h2
          rw [← h2]
          exact ⟨rfl, rfl⟩
      | error e => exact ProcessActionResponse.noConfusion h
  | CreateAdvanced c opts =>
      cases sp with
      | ok u =>
          have hr : (processMessage st (ProcessAction.CreateAdvanced c opts)
              (Except.ok u) k).response = ProcessActionResponse.Created ⟨st.index, c⟩ := rfl
          rw [hr] at h
          injection h with h2
          rw [← h2]
          exact ⟨rfl, rfl⟩
      | error e => exact ProcessActionResponse.noConfusion h
  | Wait id =>
      simp only [processMessage] at h
      split at h <;> exact ProcessActionResponse.noConfusion h
  | Kill id =>
      simp only [processMessage] at h
      split at h
      · cases hkr : k id <;> rw [hkr] at h <;> exact ProcessActionResponse.noConfusion h
      · exact ProcessActionResponse.noConfusion h
  | KillAdvanced id s =>
      simp only [processMessage] at h
      split at h
      · cases hkr : k id <;> rw [hkr] at h <;> exact ProcessActionResponse.noConfusion h
      · exact ProcessActionResponse.noConfusion h
  | KillAll =>
      simp only [processMessage] at h
      split at h <;> exact ProcessActionResponse.noConfusion h
  | List => exact ProcessActionResponse.noConfusion h

theorem createdSeqs_cons_created (pid : ProcessId) (xs : List (Option ProcessActionResponse)) :
    createdSeqs (some (ProcessActionResponse.Created pid) :: xs) = pid.id :: createdSeqs xs :=
  rfl

theorem createdSeqs_cons_none (xs : List (Option ProcessActionResponse)) :
    createdSeqs (none :: xs) = createdSeqs xs :=
  rfl

theorem createdSeqs_cons_not_created (x : Option ProcessActionResponse)
    (xs : List (Option ProcessActionResponse))
    (h : ∀ pid, x ≠ some (ProcessActionResponse.Created pid)) :
    createdSeqs (x :: xs) = createdSeqs xs := by
  match x with
  | none => rfl
  | some (ProcessActionResponse.Created pid) => exact absurd rfl (h pid)
  | some ProcessActionResponse.Waited => rfl
  | some ProcessActionResponse.Killed => rfl
  | some ProcessActionResponse.KilledAll => rfl
  | some (ProcessActionResponse.List l) => rfl
  | some (ProcessActionResponse.Error e) => rfl

/-- Every sequence number created along a run is at least the starting
counter. -/
theorem runEvents_created_lb (evs : List ManagerEvent) :
    ∀ st : ManagerState, ∀ n ∈ createdSeqs (runEvents st evs).2, st.index ≤ n := by
  induction evs with
  | nil =>
      intro st n hn
      simp [runEvents, createdSeqs] at hn
  | cons e rest ih =>
      intro st n hn
      rw [runEvents_cons_snd] at hn
      cases e with
      | Reap poll =>
          rw [stepEvent_reap_snd, createdSeqs_cons_none] at hn
          exact le_trans (stepEvent_index_mono st _) (ih _ n hn)
      | Req a sp k =>
          rw [stepEvent_req_snd] at hn
          by_cases hc : ∃ pid,
              (processMessage st a sp k).response = ProcessActionResponse.Created pid
          · rcases hc with ⟨pid, hresp⟩
            rw [hresp, createdSeqs_cons_created] at hn
            rcases List.mem_cons.mp hn with h | h
            · subst h
              exact le_of_eq (processMessage_created st a sp k pid hresp).1.symm
            · have h2 := (processMessage_created st a sp k pid hresp).2
              have h3 := ih (stepEvent st (ManagerEvent.Req a sp k)).1 n h
              rw [stepEvent_req_fst, h2] at h3
              omega
          · push_neg at hc
            rw [createdSeqs_cons_not_created _ _
              (fun pid hx => hc pid (Option.some.inj hx))] at hn
            exact le_trans (stepEvent_index_mono st _) (ih _ n hn)

theorem runEvents_index_mono (evs : List ManagerEvent) :
    ∀ st : ManagerState, st.index ≤ (runEvents st evs).1.index := by
  induction evs with
  | nil => intro st; exact Nat.le_refl _
  | cons e rest ih =>
      intro st
      rw [runEvents_cons_fst]
      exact le_trans (stepEvent_index_mono st e) (ih _)

theorem runEvents_created_pairwise (evs : List ManagerEvent) :
    ∀ st : ManagerState,
      List.Pairwise (fun m n => m < n) (createdSeqs (runEvents st evs).2) := by
  induction evs with
  | nil =>
      intro st
      exact List.Pairwise.nil
  | cons e rest ih =>
      intro st
      rw [runEvents_cons_snd]
      cases e with
      | Reap poll =>
          rw [stepEvent_reap_snd, createdSeqs_cons_none]
          exact ih _
      | Req a sp k =>
          rw [stepEvent_req_snd]
          by_cases hc : ∃ pid,
              (processMessage st a sp k).response = ProcessActionResponse.Created pid
          · rcases hc with ⟨pid, hresp⟩
            rw [hresp, createdSeqs_cons_created]
            refine List.Pairwise.cons ?_ (ih _)
            intro n hn
            have hlb := runEvents_created_lb rest (stepEvent st (ManagerEvent.Req a sp k)).1 n hn
            have h2 := (processMessage_created st a sp k pid hresp).2
            rw [stepEvent_req_fst, h2] at hlb
            have h1 := (processMessage_created st a sp k pid hresp).1
            omega
          · push_neg at hc
            rw [createdSeqs_cons_not_created _ _
              (fun pid hx => hc pid (Option.some.inj hx))]
            exact ih _

/-- C6: along any sequence of requests and reap cycles within one manager
lifetime, the sequence numbers of the `Created` replies are strictly
increasing (thus never repeated, whatever the command texts), and the
manager's `index` counter only increases. -/
theorem created_sequence_strictly_increasing (st : ManagerState) (evs : List ManagerEvent) :
    List.Pairwise (fun m n => m < n) (createdSeqs (runEvents st evs).2) ∧
      st.index ≤ (runEvents st evs).1.index :=
  ⟨runEvents_created_pairwise evs st, runEvents_index_mono evs st⟩

end Together
